import Mathlib

/-!
Verification development for the UAVLogViewer telemetry log decoder
(backend/app/mavlink_parser.py, class MAVLinkParser).

Shallow embedding conventions:
* Python floats are modelled by rationals (ℚ); the claims under study concern
  control flow, ordering and exact unit conversions, none of which hinge on
  floating-point rounding.
* A decoded pymavlink message object is modelled by `Msg`: each attribute the
  parser touches becomes an `Option` field (`none` = attribute/key absent,
  mirroring `hasattr` / `"k" in dict` checks).
* The per-frame exception behaviour of `MAVLinkParser.parse` is modelled by the
  `Frame` type.  The `try` body of the read loop can raise at three places:
  inside `mlog.recv_match()` itself (before `message_count` is incremented),
  inside `msg.get_type()/msg.to_dict()` (after the count, first/last-timestamp,
  type-set and bucket-creation updates, before the bucket append), and inside
  the GLOBAL_POSITION_INT field accesses `msg.lat/lon/alt/relative_alt`
  (after the bucket append).  The first two are external failures of the codec
  and are the constructors `failRecv` and `failDecode`; the third is determined
  by the message content (a missing field), so it is derived from the `Msg` of
  a `decoded` frame.
* Python dicts are insertion-ordered association lists; `dict[k] = v` keeps the
  original position of an existing key (`dictInsert`), and dict key membership
  is membership in the key list.
-/

/-- One decoded pymavlink message, with every attribute/dict key the parser
reads.  `tstamp` is the `_timestamp` attribute set by the frame reader,
`hbType` the HEARTBEAT `type` field, `text` the `Message` field of MSG
records. -/
structure Msg where
  msgType : String
  tstamp : Option ℚ
  time_boot_ms : Option ℚ
  time_unix_usec : Option ℚ
  custom_mode : Option ℕ
  hbType : Option ℕ
  text : Option String
  lat : Option ℤ
  lon : Option ℤ
  alt : Option ℤ
  relative_alt : Option ℤ
  roll : Option ℚ
  pitch : Option ℚ
  yaw : Option ℚ
deriving DecidableEq, Repr

/-- A message with no attributes set, convenient base for record updates. -/
def baseMsg : Msg :=
  { msgType := "", tstamp := none, time_boot_ms := none, time_unix_usec := none,
    custom_mode := none, hbType := none, text := none, lat := none, lon := none,
    alt := none, relative_alt := none, roll := none, pitch := none, yaw := none }

/-- A normalized record: the message dict plus the `_timestamp` key added at
line 90 of the source. -/
structure NRec where
  msg : Msg
  ts : ℚ
deriving DecidableEq, Repr

/-- One trajectory point `[lon, lat, alt, ts]` (timestamps in milliseconds). -/
structure TP where
  lon : ℚ
  lat : ℚ
  alt : ℚ
  ts : ℚ
deriving DecidableEq, Repr

/-- One frame of the input stream, as seen by the read loop (see the module
comment for the three failure positions). -/
inductive Frame where
  | failRecv : Frame
  | failDecode : Msg → Frame
  | decoded : Msg → Frame
deriving DecidableEq, Repr

/-- The locals of the trajectory accumulation in `parse`
(lines 62-67 and 94-127). -/
structure TrajState where
  trajectory : List TP
  time_traj : List (ℚ × TP)
  start_altitude : Option ℚ
  last_position : Option (ℚ × ℚ × ℚ)
  last_timestamp : Option ℚ
deriving DecidableEq, Repr

/-- Mutable state of one `MAVLinkParser` during `parse`. -/
structure PState where
  messages : List (String × List NRec)
  types : List String
  msg_count : ℕ
  corrupted : ℕ
  first_ts : Option ℚ
  last_ts : Option ℚ
  cur_ts : Option ℚ
  traj : TrajState
deriving DecidableEq, Repr

/-- `MAVLinkParser._get_timestamp` (lines 32-49): the fallback chain
`_timestamp`, `time_boot_ms / 1000`, `time_unix_usec / 1e6`, then the lazily
computed `self.current_timestamp` (the process wall clock `wall`, captured at
most once per run).  Returns the resolved timestamp and the new cached value.
The `except` branch of the source is unreachable here because none of the
modelled attribute reads can fail. -/
def getTimestamp (wall : ℚ) (cur : Option ℚ) (m : Msg) : ℚ × Option ℚ :=
  match m.tstamp with
  | some t => (t, cur)
  | none =>
    match m.time_boot_ms with
    | some b => (b / 1000, cur)
    | none =>
      match m.time_unix_usec with
      | some u => (u / 1000000, cur)
      | none =>
        match cur with
        | some c => (c, some c)
        | none => (wall, some wall)

/-- Python dict assignment `d[k] = v`: replace the first (only) occurrence of
the key in place, else append. -/
def dictInsert (k : ℚ) (v : TP) : List (ℚ × TP) → List (ℚ × TP)
  | [] => [(k, v)]
  | p :: rest => if p.1 = k then (k, v) :: rest else p :: dictInsert k v rest

/-- Lines 85-86: create an empty bucket for a message type not seen before. -/
def ensureKey (l : List (String × List NRec)) (k : String) :
    List (String × List NRec) :=
  if k ∈ l.map Prod.fst then l else l ++ [(k, [])]

/-- Line 91: append a record to the (existing) bucket of its type. -/
def bucketAppend (k : String) (r : NRec) :
    List (String × List NRec) → List (String × List NRec)
  | [] => []
  | p :: rest => if p.1 = k then (p.1, p.2 ++ [r]) :: rest else p :: bucketAppend k r rest

/-- Line 84: `self.message_types.add(msg_type)` (the set as a dedup list). -/
def addType (l : List String) (k : String) : List String :=
  if k ∈ l then l else l ++ [k]

/-- `self.messages.get(k, [])`-style bucket lookup used by the feature
extractors. -/
def lookupBucket (l : List (String × List NRec)) (k : String) : List NRec :=
  match l.find? (fun p => p.1 == k) with
  | some p => p.2
  | none => []

/-- Total number of records across all buckets. -/
def sumLens (l : List (String × List NRec)) : ℕ :=
  (l.map (fun p => p.2.length)).sum

/-- Line 101: `last_timestamp is None or (timestamp - last_timestamp) >= 200`.
Note the source compares a seconds-valued difference with the literal 200. -/
def timeOk (ts : ℚ) : Option ℚ → Bool
  | none => true
  | some l => decide (200 ≤ ts - l)

/-- Lines 102-106: `last_position is None or` any coordinate moved beyond the
resolution threshold (source literals 0.00001 deg and 0.1 m, strict `>`).
`last_position` is stored as `(lat, lon, relative_alt)` as at line 126. -/
def movedOk (lat lon rel : ℚ) : Option (ℚ × ℚ × ℚ) → Bool
  | none => true
  | some p =>
      decide (1/100000 < |lat - p.1|) || decide (1/100000 < |lon - p.2.1|) ||
        decide (1/10 < |rel - p.2.2|)

/-- Lines 100-127: the significant-motion filter and trajectory accumulation
for one GLOBAL_POSITION_INT sample whose fields decoded successfully
(`lat`, `lon`, `rel` already converted to degrees / meters, `ts` in
seconds). -/
def trajStep (ts lat lon rel : ℚ) (t : TrajState) : TrajState :=
  if timeOk ts t.last_timestamp && movedOk lat lon rel t.last_position then
    let a₀ := t.start_altitude.getD rel
    { trajectory := t.trajectory ++ [⟨lon, lat, rel - a₀, ts * 1000⟩],
      time_traj := dictInsert (ts * 1000) ⟨lon, lat, rel, ts * 1000⟩ t.time_traj,
      start_altitude := some a₀,
      last_position := some (lat, lon, rel),
      last_timestamp := some ts }
  else t

/-- The four raw GLOBAL_POSITION_INT fields read at lines 95-98; `none` when
any of them is missing, in which case the source raises mid-frame. -/
def gpiFields (m : Msg) : Option (ℤ × ℤ × ℤ × ℤ) :=
  match m.lat, m.lon, m.alt, m.relative_alt with
  | some a, some b, some c, some d => some (a, b, c, d)
  | _, _, _, _ => none

/-- Lines 76-91: the part of the loop body shared by every frame the reader
returned: count it, resolve its timestamp, update first/last timestamp, the
type set and the bucket table (bucket created, record not yet appended).
Returns the updated state and the resolved timestamp. -/
def normStep (wall : ℚ) (s : PState) (m : Msg) : PState × ℚ :=
  let r := getTimestamp wall s.cur_ts m
  ({ s with
      msg_count := s.msg_count + 1,
      cur_ts := r.2,
      first_ts := some (s.first_ts.getD r.1),
      last_ts := some r.1,
      types := addType s.types m.msgType,
      messages := ensureKey s.messages m.msgType }, r.1)

/-- One iteration of the `while True` loop of `parse` (lines 70-132),
including the `except` handler at lines 129-132. -/
def processFrame (wall : ℚ) (s : PState) (f : Frame) : PState :=
  match f with
  | .failRecv => { s with corrupted := s.corrupted + 1 }
  | .failDecode m =>
      let p := normStep wall s m
      { p.1 with corrupted := p.1.corrupted + 1 }
  | .decoded m =>
      let p := normStep wall s m
      let s₁ := { p.1 with messages := bucketAppend m.msgType ⟨m, p.2⟩ p.1.messages }
      if m.msgType = "GLOBAL_POSITION_INT" then
        match gpiFields m with
        | some q =>
            { s₁ with
                traj := trajStep p.2 ((q.1 : ℚ) / 10000000) ((q.2.1 : ℚ) / 10000000)
                  ((q.2.2.2 : ℚ) / 1000) s₁.traj }
        | none => { s₁ with corrupted := s₁.corrupted + 1 }
      else s₁

/-- Parser state as set up in `__init__` (lines 18-30). -/
def initState : PState :=
  { messages := [], types := [], msg_count := 0, corrupted := 0,
    first_ts := none, last_ts := none, cur_ts := none,
    traj := { trajectory := [], time_traj := [], start_altitude := none,
              last_position := none, last_timestamp := none } }

/-- The parallel roll/pitch/yaw/timestamp series of `_process_attitude`
(lines 180-196).  Decoded ATTITUDE frames always carry these fields; a
missing field is modelled as 0 (in the source it would raise outside the
per-frame handler). -/
structure AttitudeSeries where
  roll : List ℚ
  pitch : List ℚ
  yaw : List ℚ
  timestamps : List ℚ
deriving DecidableEq, Repr

/-- `MAVLinkParser._process_attitude`. -/
def processAttitude (msgs : List (String × List NRec)) : AttitudeSeries :=
  let bucket := lookupBucket msgs "ATTITUDE"
  { roll := bucket.map (fun r => r.msg.roll.getD 0),
    pitch := bucket.map (fun r => r.msg.pitch.getD 0),
    yaw := bucket.map (fun r => r.msg.yaw.getD 0),
    timestamps := bucket.map (fun r => r.ts) }

/-- One entry `{"timestamp": ..., "mode": ...}` of the flight-mode list. -/
structure FMode where
  timestamp : ℚ
  mode : ℕ
deriving DecidableEq, Repr

/-- `MAVLinkParser._process_flight_modes` (lines 198-208): one entry per
HEARTBEAT record that carries a `custom_mode` key, in arrival order. -/
def processFlightModes (msgs : List (String × List NRec)) : List FMode :=
  (lookupBucket msgs "HEARTBEAT").filterMap
    (fun r => r.msg.custom_mode.map (fun m => ⟨r.ts, m⟩))

/-- The `type_map` dict literal of `_get_vehicle_type` (lines 219-250). -/
def typeTable : List (ℕ × String) :=
  [(0, "Generic"), (1, "Fixed Wing"), (2, "Quadcopter"),
   (3, "Coaxial Helicopter"), (4, "Helicopter"), (5, "Antenna Tracker"),
   (6, "GCS"), (7, "Airship"), (8, "Free Balloon"), (9, "Rocket"),
   (10, "Ground Rover"), (11, "Surface Boat"), (12, "Submarine"),
   (13, "Hexacopter"), (14, "Octocopter"), (15, "Tricopter"),
   (16, "Flapping Wing"), (17, "Kite"), (18, "Onboard Controller"),
   (19, "VTOL Duorotor"), (20, "VTOL Quadrotor"), (21, "VTOL Tiltrotor"),
   (22, "VTOL Reserved 2"), (23, "VTOL Reserved 3"), (24, "VTOL Reserved 4"),
   (25, "VTOL Reserved 5"), (26, "Gimbal"), (27, "ADSB"), (28, "Parafoil"),
   (29, "Dodecarotor")]

/-- `type_map.get(type_id)` without the default. -/
def typeLookup (n : ℕ) : Option String :=
  (typeTable.find? (fun p => p.1 == n)).map Prod.snd

/-- ASCII case folding of one character (the keyword texts the source scans
for are plain ASCII, so this models Python `str.lower` faithfully on the
inputs that matter). -/
def lowerChar (c : Char) : Char :=
  if 65 ≤ c.toNat ∧ c.toNat ≤ 90 then Char.ofNat (c.toNat + 32) else c

/-- Python `str.lower` on the scanned status text. -/
def strLower (s : String) : String :=
  String.mk (s.data.map lowerChar)

/-- Python substring test `sub in l` on character lists. -/
def hasInfix (sub : List Char) : List Char → Bool
  | [] => sub.isEmpty
  | c :: rest => sub.isPrefixOf (c :: rest) || hasInfix sub rest

/-- Python substring test on strings. -/
def strContains (s sub : String) : Bool :=
  hasInfix sub.toList s.toList

/-- The free-text keyword loop of `_get_vehicle_type` (lines 254-271): first
MSG record whose lowercased text contains a known keyword wins; `break` on
match, otherwise keep scanning; `"UNKNOWN"` when nothing matches. -/
def scanMsgs : List NRec → String
  | [] => "UNKNOWN"
  | r :: rest =>
      let t := strLower (r.msg.text.getD "")
      if strContains t "arduplane" then "Fixed Wing"
      else if strContains t "arducopter" then "Quadcopter"
      else if strContains t "ardusub" then "Submarine"
      else if strContains t "rover" then "Ground Rover"
      else if strContains t "tracker" then "Antenna Tracker"
      else scanMsgs rest

/-- `MAVLinkParser._get_vehicle_type` (lines 210-273). -/
def getVehicleType (msgs : List (String × List NRec)) : String :=
  let vt :=
    match lookupBucket msgs "HEARTBEAT" with
    | [] => "UNKNOWN"
    | r :: _ =>
        match r.msg.hbType with
        | none => "UNKNOWN"
        | some n => (typeLookup n).getD ("Unknown Type " ++ toString n)
  if vt = "UNKNOWN" then
    if "MSG" ∈ msgs.map Prod.fst then scanMsgs (lookupBucket msgs "MSG")
    else "UNKNOWN"
  else vt

/-- One value of `trajectory_data` (lines 147-153). -/
structure Track where
  startAltitude : Option ℚ
  trajectory : List TP
  timeTrajectory : List (ℚ × TP)
deriving DecidableEq, Repr

/-- `self.metadata` at the end of `parse`: the `__init__` keys plus the keys
added at lines 134-135 and 159-164.  `duration : Option` models presence of
the `duration` key. -/
structure Metadata where
  file_name : String
  file_size : ℕ
  message_count : ℕ
  corrupted_messages : ℕ
  first_timestamp : Option ℚ
  last_timestamp : Option ℚ
  duration : Option ℚ
  trajectory_data : List (String × Track)
  currentTrajectory : List TP
  trajectorySources : List String
deriving DecidableEq, Repr

/-- The dict returned by `parse` (lines 166-174). -/
structure ParseResult where
  messages : List (String × List NRec)
  metadata : Metadata
  trajectory_data : List (String × Track)
  attitude : AttitudeSeries
  flight_modes : List FMode
  vehicle_type : String
  types : List String
deriving DecidableEq, Repr

/-- The keys of the dict literal returned at lines 166-174, in source order. -/
def resultKeys : List String :=
  ["messages", "metadata", "trajectory_data", "attitude", "flight_modes",
   "vehicle_type", "types"]

/-- Lines 134-174: duration computation (Python truthiness: the `duration`
key is written only when first and last timestamp are both non-None and
nonzero), feature extraction from the pre-`GLOBAL_POSITION_INT`-ensure
message table (lines 142-144 run before lines 156-157), trajectory-data
assembly and the final result dict. -/
def finalize (fn : String) (fsz : ℕ) (s : PState) : ParseResult :=
  let dur : Option ℚ :=
    match s.first_ts, s.last_ts with
    | some f, some l => if f ≠ 0 ∧ l ≠ 0 then some (l - f) else none
    | _, _ => none
  let track : Track :=
    { startAltitude := s.traj.start_altitude,
      trajectory := s.traj.trajectory,
      timeTrajectory := s.traj.time_traj }
  let tdata := [("GLOBAL_POSITION_INT", track)]
  { messages := ensureKey s.messages "GLOBAL_POSITION_INT",
    metadata :=
      { file_name := fn, file_size := fsz, message_count := s.msg_count,
        corrupted_messages := s.corrupted, first_timestamp := s.first_ts,
        last_timestamp := s.last_ts, duration := dur,
        trajectory_data := tdata, currentTrajectory := s.traj.trajectory,
        trajectorySources := ["GLOBAL_POSITION_INT"] },
    trajectory_data := tdata,
    attitude := processAttitude s.messages,
    flight_modes := processFlightModes s.messages,
    vehicle_type := getVehicleType s.messages,
    types := s.types }

/-- `MAVLinkParser(<fn>).parse()` over an abstract frame stream; `wall` is the
process wall-clock value `time.time()` would return inside this run. -/
def parse (wall : ℚ) (fn : String) (fsz : ℕ) (frames : List Frame) : ParseResult :=
  finalize fn fsz (frames.foldl (processFrame wall) initState)

/-- Frames whose processing raises somewhere in the loop body (at receive, at
decode, or at the GLOBAL_POSITION_INT field accesses). -/
def frameFails : Frame → Bool
  | .failRecv => true
  | .failDecode _ => true
  | .decoded m => m.msgType == "GLOBAL_POSITION_INT" && (gpiFields m).isNone

/-- Frames that pass `recv_match`, i.e. reach the `message_count` increment. -/
def frameCounted : Frame → Bool
  | .failRecv => false
  | _ => true

/-- Frames that reach the bucket append at line 91. -/
def frameAppends : Frame → Bool
  | .decoded _ => true
  | _ => false

/-- Frames that fail between the count increment and the bucket append. -/
def frameFailsDecode : Frame → Bool
  | .failDecode _ => true
  | _ => false

/-- A GLOBAL_POSITION_INT message missing its `lat` attribute: the access at
line 95 raises after the record was appended to its bucket at line 91. -/
def gpiNoLat : Msg :=
  { baseMsg with
    msgType := "GLOBAL_POSITION_INT"
    tstamp := some 1
    lon := some 0
    alt := some 0
    relative_alt := some 0 }

/-- A position sample at t = 0 s at the origin. -/
def gpiA : Msg :=
  { baseMsg with
    msgType := "GLOBAL_POSITION_INT"
    tstamp := some 0
    lat := some 0
    lon := some 0
    alt := some 0
    relative_alt := some 0 }

/-- A position sample at t = 300 s, 2 degrees of latitude away. -/
def gpiB : Msg :=
  { baseMsg with
    msgType := "GLOBAL_POSITION_INT"
    tstamp := some 300
    lat := some 20000000
    lon := some 0
    alt := some 0
    relative_alt := some 0 }

/-- A position sample at t = 1 s, 2 degrees of latitude away: about 220 km of
motion, one second (1000 ms) after `gpiA`. -/
def gpiC : Msg :=
  { baseMsg with
    msgType := "GLOBAL_POSITION_INT"
    tstamp := some 1
    lat := some 20000000
    lon := some 0
    alt := some 0
    relative_alt := some 0 }

/-- A lone timestamped non-position message. -/
def attA : Msg :=
  { baseMsg with
    msgType := "ATTITUDE"
    tstamp := some 5
    roll := some 0
    pitch := some 0
    yaw := some 0 }

/-- Two HEARTBEAT messages carrying the same `custom_mode`. -/
def hbSame1 : Msg :=
  { baseMsg with
    msgType := "HEARTBEAT"
    tstamp := some 0
    custom_mode := some 5 }

/-- Second HEARTBEAT with the same mode, one second later. -/
def hbSame2 : Msg :=
  { baseMsg with
    msgType := "HEARTBEAT"
    tstamp := some 1
    custom_mode := some 5 }

/-- A HEARTBEAT whose numeric vehicle type 99 is not in the lookup table. -/
def hb99 : Msg :=
  { baseMsg with
    msgType := "HEARTBEAT"
    tstamp := some 0
    hbType := some 99 }

/-- A HEARTBEAT with the recognized vehicle type code 1 (Fixed Wing). -/
def hb1 : Msg :=
  { baseMsg with
    msgType := "HEARTBEAT"
    tstamp := some 0
    hbType := some 1 }

/-- A free-text status message containing the `arducopter` keyword. -/
def msgCopter : Msg :=
  { baseMsg with
    msgType := "MSG"
    tstamp := some 1
    text := some "ArduCopter V4.0" }

/-- A message with no time information at all (reaches the wall-clock
fallback). -/
def mNoTime : Msg := { baseMsg with msgType := "SYS_STATUS" }

/-- Message table with an unrecognized heartbeat type code and a conflicting
free-text keyword. -/
def msgs6c : List (String × List NRec) :=
  [("HEARTBEAT", [⟨hb99, 0⟩]), ("MSG", [⟨msgCopter, 1⟩])]

/-- Message table with a recognized heartbeat type code and a conflicting
free-text keyword. -/
def msgs6w : List (String × List NRec) :=
  [("HEARTBEAT", [⟨hb1, 0⟩]), ("MSG", [⟨msgCopter, 1⟩])]

/-- Input stream accepting two trajectory samples (300 s and 220 km apart). -/
def c8frames : List Frame := [.decoded gpiA, .decoded gpiB]

/-- The track `parse` produces on `c8frames`. -/
def c8track : Track :=
  { startAltitude := some 0,
    trajectory := [⟨0, 0, 0, 0⟩, ⟨0, 2, 0, 300000⟩],
    timeTrajectory := [(0, ⟨0, 0, 0, 0⟩), (300000, ⟨0, 2, 0, 300000⟩)] }

/-- The empty track. -/
def emptyTrack : Track :=
  { startAltitude := none, trajectory := [], timeTrajectory := [] }

/-- The well-formedness invariant of the trajectory accumulator, maintained by
every loop iteration of `parse`. -/
structure TrajInv (t : TrajState) : Prop where
  startNone : t.start_altitude = none →
    t.trajectory = [] ∧ t.time_traj = [] ∧ t.last_timestamp = none
  startSome : t.start_altitude.isSome → t.trajectory ≠ [] ∧ t.time_traj ≠ []
  lastNone : t.last_timestamp = none → t.trajectory = [] ∧ t.time_traj = []
  keys : t.time_traj.map Prod.fst = t.trajectory.map TP.ts
  bound : ∀ l, t.last_timestamp = some l → ∀ k ∈ t.trajectory.map TP.ts, k ≤ l * 1000
  sorted : List.Pairwise (fun a b => a < b) (t.trajectory.map TP.ts)
  altRel : ∀ a₀, t.start_altitude = some a₀ →
    List.Forall₂ (fun p q => p.alt = (Prod.snd q).alt - a₀) t.trajectory t.time_traj
  firstAbs : ∀ a₀, t.start_altitude = some a₀ →
    ∀ q, t.time_traj.head? = some q → (Prod.snd q).alt = a₀
  firstZero : ∀ p, t.trajectory.head? = some p → p.alt = 0

set_option allowUnsafeReducibility true in
attribute [semireducible] Rat.add Rat.sub Rat.mul Rat.inv

/-- Creating an empty bucket does not change the total record count. -/
theorem sumLens_ensureKey (l : List (String × List NRec)) (k : String) :
    sumLens (ensureKey l k) = sumLens l := by
  unfold ensureKey
  split
  · rfl
  · simp [sumLens]

/-- After `ensureKey`, the key is present. -/
theorem mem_keys_ensureKey (l : List (String × List NRec)) (k : String) :
    k ∈ (ensureKey l k).map Prod.fst := by
  unfold ensureKey
  split
  · assumption
  · simp

/-- Appending a record to an existing bucket adds exactly one record. -/
theorem sumLens_bucketAppend (k : String) (r : NRec) :
    ∀ l : List (String × List NRec), k ∈ l.map Prod.fst →
      sumLens (bucketAppend k r l) = sumLens l + 1 := by
  intro l
  induction l with
  | nil => intro h; simp at h
  | cons p rest ih =>
      intro h
      by_cases hp : p.1 = k
      · simp [bucketAppend, hp, sumLens]
        omega
      · have hmem : k ∈ rest.map Prod.fst := by
          simp at h
          rcases h with h | h
          · exact absurd h.symm hp
          · simpa using h
        simp [bucketAppend, hp, sumLens]
        have := ih hmem
        simp [sumLens] at this
        omega

/-- Effect of one loop iteration on `message_count`. -/
theorem msgCount_step (wall : ℚ) (s : PState) (f : Frame) :
    (processFrame wall s f).msg_count =
      s.msg_count + (if frameCounted f then 1 else 0) := by
  cases f with
  | failRecv => simp [processFrame, frameCounted]
  | failDecode m => simp [processFrame, normStep, frameCounted]
  | decoded m =>
      by_cases ht : m.msgType = "GLOBAL_POSITION_INT"
      · cases hq : gpiFields m with
        | some q => simp [processFrame, normStep, frameCounted, ht, hq]
        | none => simp [processFrame, normStep, frameCounted, ht, hq]
      · simp [processFrame, normStep, frameCounted, ht]

/-- Effect of one loop iteration on the total bucket size: only frames that
reach the append at line 91 add a record. -/
theorem sumLens_step (wall : ℚ) (s : PState) (f : Frame) :
    sumLens (processFrame wall s f).messages =
      sumLens s.messages + (if frameAppends f then 1 else 0) := by
  cases f with
  | failRecv => simp [processFrame, frameAppends]
  | failDecode m => simp [processFrame, normStep, frameAppends, sumLens_ensureKey]
  | decoded m =>
      have hsum :
          sumLens (bucketAppend m.msgType ⟨m, (getTimestamp wall s.cur_ts m).1⟩
              (ensureKey s.messages m.msgType)) = sumLens s.messages + 1 := by
        rw [sumLens_bucketAppend _ _ _ (mem_keys_ensureKey s.messages m.msgType),
          sumLens_ensureKey]
      by_cases ht : m.msgType = "GLOBAL_POSITION_INT"
      · rw [ht] at hsum
        cases hq : gpiFields m with
        | some q => simp [processFrame, normStep, frameAppends, ht, hq, hsum]
        | none => simp [processFrame, normStep, frameAppends, ht, hq, hsum]
      · simp [processFrame, normStep, frameAppends, ht, hsum]

/-- Effect of one loop iteration on the corrupted-message counter: exactly the
failing frames increment it, by one. -/
theorem corrupted_step (wall : ℚ) (s : PState) (f : Frame) :
    (processFrame wall s f).corrupted =
      s.corrupted + (if frameFails f then 1 else 0) := by
  cases f with
  | failRecv => simp [processFrame, frameFails]
  | failDecode m => simp [processFrame, normStep, frameFails]
  | decoded m =>
      by_cases ht : m.msgType = "GLOBAL_POSITION_INT"
      · cases hq : gpiFields m with
        | some q => simp [processFrame, normStep, frameFails, ht, hq]
        | none => simp [processFrame, normStep, frameFails, ht, hq]
      · simp [processFrame, normStep, frameFails, ht]

/-- Counters over a whole run of the read loop. -/
theorem counts_fold (wall : ℚ) (frames : List Frame) : ∀ s : PState,
    (frames.foldl (processFrame wall) s).msg_count =
      s.msg_count + frames.countP frameCounted ∧
    sumLens (frames.foldl (processFrame wall) s).messages =
      sumLens s.messages + frames.countP frameAppends ∧
    (frames.foldl (processFrame wall) s).corrupted =
      s.corrupted + frames.countP frameFails := by
  induction frames with
  | nil => intro s; simp
  | cons f rest ih =>
      intro s
      obtain ⟨h1, h2, h3⟩ := ih (processFrame wall s f)
      refine ⟨?_, ?_, ?_⟩ <;>
        simp only [List.foldl_cons, List.countP_cons, h1, h2, h3,
          msgCount_step, sumLens_step, corrupted_step] <;> omega

/-- Pass-through facts from the run state to the returned result. -/
theorem parse_metadata (wall : ℚ) (fn : String) (fsz : ℕ) (frames : List Frame) :
    (parse wall fn fsz frames).metadata.message_count =
      (frames.foldl (processFrame wall) initState).msg_count ∧
    (parse wall fn fsz frames).metadata.corrupted_messages =
      (frames.foldl (processFrame wall) initState).corrupted ∧
    (parse wall fn fsz frames).metadata.first_timestamp =
      (frames.foldl (processFrame wall) initState).first_ts ∧
    (parse wall fn fsz frames).metadata.last_timestamp =
      (frames.foldl (processFrame wall) initState).last_ts ∧
    (parse wall fn fsz frames).messages =
      ensureKey (frames.foldl (processFrame wall) initState).messages
        "GLOBAL_POSITION_INT" ∧
    (parse wall fn fsz frames).metadata.trajectorySources =
      ["GLOBAL_POSITION_INT"] := by
  refine ⟨rfl, rfl, rfl, rfl, rfl, rfl⟩

/-- The frames reaching the count increment split into those that reach the
bucket append and those that fail in between. -/
theorem countP_counted_split (frames : List Frame) :
    frames.countP frameCounted =
      frames.countP frameAppends + frames.countP frameFailsDecode := by
  induction frames with
  | nil => simp
  | cons f rest ih =>
      cases f <;>
        simp [List.countP_cons, frameCounted, frameAppends, frameFailsDecode, ih] <;>
        omega

/-- C2, the claim as stated is false; what holds instead.  `message_count`
counts every frame `recv_match` returned (line 76), whether or not its later
processing fails; the bucket sum counts every frame that reached the append at
line 91, including GLOBAL_POSITION_INT frames whose trajectory processing
fails afterwards; `corrupted_messages` counts every failure wherever it
happened.  Hence `message_count = bucket-sum + (failures between the count
increment and the append)`, and the claimed identity
`message_count = normalized + corrupted` breaks for failures inside
`recv_match` itself. -/
theorem c2_count_amended (wall : ℚ) (fn : String) (fsz : ℕ) (frames : List Frame) :
    (parse wall fn fsz frames).metadata.message_count =
      frames.countP frameCounted ∧
    sumLens (parse wall fn fsz frames).messages = frames.countP frameAppends ∧
    (parse wall fn fsz frames).metadata.corrupted_messages =
      frames.countP frameFails ∧
    (parse wall fn fsz frames).metadata.message_count =
      sumLens (parse wall fn fsz frames).messages +
        frames.countP frameFailsDecode := by
  obtain ⟨h1, h2, h3⟩ := counts_fold wall frames initState
  obtain ⟨p1, p2, _, _, p5, _⟩ := parse_metadata wall fn fsz frames
  have hsplit := countP_counted_split frames
  have e1 : (parse wall fn fsz frames).metadata.message_count =
      frames.countP frameCounted := by
    rw [p1, h1]; simp [initState]
  have e2 : sumLens (parse wall fn fsz frames).messages =
      frames.countP frameAppends := by
    rw [p5, sumLens_ensureKey, h2]; simp [initState, sumLens]
  have e3 : (parse wall fn fsz frames).metadata.corrupted_messages =
      frames.countP frameFails := by
    rw [p2, h3]; simp [initState]
  refine ⟨e1, e2, e3, ?_⟩
  rw [e1, e2, hsplit]

/-- C2, counterexample: a single frame that fails inside `recv_match` gives
`message_count = 0` but `corrupted_messages = 1` and no normalized frame, so
`message_count ≠ normalized + corrupted`. -/
theorem c2_counterexample :
    (parse 0 "f" 0 [.failRecv]).metadata.message_count = 0 ∧
    (parse 0 "f" 0 [.failRecv]).metadata.corrupted_messages = 1 ∧
    sumLens (parse 0 "f" 0 [.failRecv]).messages = 0 ∧
    (parse 0 "f" 0 [.failRecv]).metadata.message_count ≠
      sumLens (parse 0 "f" 0 [.failRecv]).messages +
        (parse 0 "f" 0 [.failRecv]).metadata.corrupted_messages := by
  decide

/-- C1, the claim as stated is false; what holds instead.  Every failing frame
increments the corrupted counter by exactly one and the loop continues (the
fold is total, no exception reaches the caller); a frame failing at receive
or before the bucket append leaves no bucket entry and no trajectory point;
but a GLOBAL_POSITION_INT frame whose field accesses at lines 95-98 fail has
already been appended to its bucket at line 91, so it is not fully
discarded (it still contributes no trajectory point). -/
theorem c1_per_frame_recovery (wall : ℚ) (fn : String) (fsz : ℕ)
    (frames : List Frame) :
    ((parse wall fn fsz frames).metadata.corrupted_messages =
      frames.countP frameFails) ∧
    (∀ s : PState, (processFrame wall s .failRecv).messages = s.messages ∧
      (processFrame wall s .failRecv).traj = s.traj) ∧
    (∀ (s : PState) (m : Msg),
      sumLens (processFrame wall s (.failDecode m)).messages =
        sumLens s.messages ∧
      (processFrame wall s (.failDecode m)).traj = s.traj) ∧
    (∀ (s : PState) (m : Msg), frameFails (.decoded m) = true →
      sumLens (processFrame wall s (.decoded m)).messages =
        sumLens s.messages + 1 ∧
      (processFrame wall s (.decoded m)).traj = s.traj) := by
  obtain ⟨_, _, h3⟩ := counts_fold wall frames initState
  refine ⟨?_, ?_, ?_, ?_⟩
  · rw [(parse_metadata wall fn fsz frames).2.1, h3]
    simp [initState]
  · intro s; exact ⟨rfl, rfl⟩
  · intro s m
    exact ⟨by simp [processFrame, normStep, sumLens_ensureKey], rfl⟩
  · intro s m hf
    have hff := hf
    unfold frameFails at hff
    rw [Bool.and_eq_true, beq_iff_eq, Option.isNone_iff_eq_none] at hff
    obtain ⟨ht, hq⟩ := hff
    have hsum :
        sumLens (bucketAppend m.msgType ⟨m, (getTimestamp wall s.cur_ts m).1⟩
            (ensureKey s.messages m.msgType)) = sumLens s.messages + 1 := by
      rw [sumLens_bucketAppend _ _ _ (mem_keys_ensureKey s.messages m.msgType),
        sumLens_ensureKey]
    rw [ht] at hsum
    constructor
    · simp [processFrame, normStep, ht, hq, hsum]
    · simp [processFrame, normStep, ht, hq]

/-- C1 witness: a GLOBAL_POSITION_INT frame with a missing `lat` field is a
failing frame that nevertheless adds one record to the bucket table. -/
theorem c1_witness :
    frameFails (.decoded gpiNoLat) = true ∧
    sumLens (processFrame 0 initState (.decoded gpiNoLat)).messages =
      sumLens initState.messages + 1 ∧
    (processFrame 0 initState (.decoded gpiNoLat)).traj = initState.traj :=
  ⟨by decide,
    (c1_per_frame_recovery 0 "f" 0 []).2.2.2 initState gpiNoLat (by decide)⟩

/-- C1 counterexample: on a log whose only frame is a GLOBAL_POSITION_INT
message lacking `lat`, the corrupted counter is 1 yet the frame left an entry
in its message-type bucket, contradicting the claimed full discard. -/
theorem c1_counterexample :
    (parse 0 "f" 0 [.decoded gpiNoLat]).metadata.corrupted_messages = 1 ∧
    (lookupBucket (parse 0 "f" 0 [.decoded gpiNoLat]).messages
      "GLOBAL_POSITION_INT").length = 1 := by
  decide

/-- C3: evaluation at the failing input.  Two GLOBAL_POSITION_INT frames one
second (1000 ms) apart with about 220 km of horizontal motion: the claimed
200 ms + motion gate would accept both, but the filter at line 101 compares
the seconds-valued timestamp difference against the literal 200, so the
second sample is rejected purely by the time gate (the motion gate would have
accepted it) and the filtered trajectory keeps only the first point. -/
theorem c3_time_gate_failing_input :
    (parse 0 "f" 0 [.decoded gpiA, .decoded gpiC]).metadata.currentTrajectory =
      [⟨0, 0, 0, 0⟩] ∧
    timeOk 1 (some 0) = false ∧
    movedOk 2 0 0 (some (0, 0, 0)) = true ∧
    timeOk 300 (some 0) = true := by
  refine ⟨by decide, by decide, by decide, by decide⟩

/-- C4: evaluation at the failing input.  Two HEARTBEAT frames with the same
`custom_mode` produce two consecutive timeline entries with the same mode:
`_process_flight_modes` emits one entry per heartbeat and performs no
run-length compression. -/
theorem c4_no_mode_compression_failing_input :
    (parse 0 "f" 0 [.decoded hbSame1, .decoded hbSame2]).flight_modes =
      [⟨0, 5⟩, ⟨1, 5⟩] ∧
    ¬ List.Chain' (fun a b => a ≠ b)
      ((parse 0 "f" 0 [.decoded hbSame1, .decoded hbSame2]).flight_modes.map
        FMode.mode) := by
  refine ⟨by decide, ?_⟩
  intro h
  have he : (parse 0 "f" 0 [.decoded hbSame1, .decoded hbSame2]).flight_modes.map
      FMode.mode = [5, 5] := by decide
  rw [he] at h
  exact (List.chain'_cons.mp h).1 rfl

/-- C5 counterexample: a log with a single timestamped frame already carries a
`duration` key, equal to 0, where the claim requires the field to be absent
for fewer than two timestamped records. -/
theorem c5_counterexample :
    (parse 0 "f" 0 [.decoded attA]).metadata.message_count = 1 ∧
    (parse 0 "f" 0 [.decoded attA]).metadata.duration = some 0 := by
  decide

/-- C5 amended: the `duration` key is present if and only if the first and
last timestamps are both set and both nonzero (Python truthiness at line 134);
when present it equals last minus first, which is 0 for a single timestamped
frame.  Presence is unrelated to having two distinct timestamped records. -/
theorem c5_duration_amended (wall : ℚ) (fn : String) (fsz : ℕ)
    (frames : List Frame) (d : ℚ) :
    (parse wall fn fsz frames).metadata.duration = some d ↔
      ∃ f l, (parse wall fn fsz frames).metadata.first_timestamp = some f ∧
        (parse wall fn fsz frames).metadata.last_timestamp = some l ∧
        f ≠ 0 ∧ l ≠ 0 ∧ d = l - f := by
  obtain ⟨_, _, p3, p4, _, _⟩ := parse_metadata wall fn fsz frames
  rw [p3, p4]
  show (finalize fn fsz (frames.foldl (processFrame wall) initState)).metadata.duration
      = some d ↔ _
  unfold finalize
  rcases h1 : (frames.foldl (processFrame wall) initState).first_ts with _ | f
  · simp [h1]
  · rcases h2 : (frames.foldl (processFrame wall) initState).last_ts with _ | l
    · simp [h1, h2]
    · simp only [h1, h2]
      split
      · rename_i hc
        simp only [Option.some_inj]
        constructor
        · intro hd
          exact ⟨f, l, rfl, rfl, hc.1, hc.2, hd.symm⟩
        · rintro ⟨f1, l1, hf1, hl1, _, _, hd⟩
          subst hf1; subst hl1; exact hd.symm
      · rename_i hc
        rw [Classical.not_and_iff_or_not_not] at hc
        constructor
        · intro hd; simp at hd
        · rintro ⟨f1, l1, hf1, hl1, hf0, hl0, _⟩
          injection hf1 with e1
          injection hl1 with e2
          subst e1; subst e2
          rcases hc with hc | hc
          · exact absurd hf0 (by simpa using hc)
          · exact absurd hl0 (by simpa using hc)

/-- C9 counterexample: none of the claimed keys `events`, `mission`, `params`,
`text_messages`, `vehicle_type_human`, `message_types`, `trajectory_sources`
exists in the dict returned at lines 166-174. -/
theorem c9_counterexample :
    "events" ∉ resultKeys ∧ "mission" ∉ resultKeys ∧ "params" ∉ resultKeys ∧
    "text_messages" ∉ resultKeys ∧ "vehicle_type_human" ∉ resultKeys ∧
    "message_types" ∉ resultKeys ∧ "trajectory_sources" ∉ resultKeys := by
  decide

/-- C9 amended: every successful parse returns a dict with exactly the keys
`messages`, `metadata`, `trajectory_data`, `attitude`, `flight_modes`,
`vehicle_type` and `types`; the message-type list travels under `types`, the
trajectory sources under `metadata["trajectorySources"]`, and there are no
`events`, `mission`, `params`, `text_messages` or `vehicle_type_human`
entries. -/
theorem c9_result_shape_amended (wall : ℚ) (fn : String) (fsz : ℕ)
    (frames : List Frame) :
    resultKeys = ["messages", "metadata", "trajectory_data", "attitude",
      "flight_modes", "vehicle_type", "types"] ∧
    (parse wall fn fsz frames).metadata.trajectorySources =
      ["GLOBAL_POSITION_INT"] := by
  exact ⟨rfl, rfl⟩

/-- Appending any suffix to `"Unknown Type "` never yields `"UNKNOWN"`. -/
theorem unknownType_ne (x : String) : "Unknown Type " ++ x ≠ "UNKNOWN" := by
  intro h
  have h2 := congrArg String.length h
  rw [String.length_append] at h2
  have h3 : ("Unknown Type " : String).length = 13 := rfl
  have h4 : ("UNKNOWN" : String).length = 7 := rfl
  omega

/-- No entry of the numeric vehicle-type table is the sentinel `"UNKNOWN"`. -/
theorem typeLookup_ne_unknown (n : ℕ) (s : String) (h : typeLookup n = some s) :
    s ≠ "UNKNOWN" := by
  unfold typeLookup at h
  cases hf : typeTable.find? (fun p => p.1 == n) with
  | none => rw [hf] at h; simp at h
  | some p =>
      rw [hf] at h
      simp at h
      have hp := List.mem_of_find?_eq_some hf
      have hall : ∀ q ∈ typeTable, q.2 ≠ "UNKNOWN" := by decide
      exact h ▸ hall p hp

/-- C6, the claim as stated is false; what holds instead.  The numeric type
code of the first HEARTBEAT record is resolved through the lookup table first
and always wins over free-text keywords; but the free-text scan runs only when
the intermediate result is still exactly `"UNKNOWN"`, i.e. when there is no
HEARTBEAT record or the first one has no `type` field.  An unrecognized
numeric code yields `"Unknown Type <n>"`, which is not `"UNKNOWN"`, so it
suppresses the keyword scan instead of falling back to it. -/
theorem c6_vehicle_precedence_amended :
    (∀ (msgs : List (String × List NRec)) (r : NRec) (rest : List NRec)
        (n : ℕ) (name : String),
      lookupBucket msgs "HEARTBEAT" = r :: rest → r.msg.hbType = some n →
      typeLookup n = some name → getVehicleType msgs = name) ∧
    (∀ (msgs : List (String × List NRec)) (r : NRec) (rest : List NRec) (n : ℕ),
      lookupBucket msgs "HEARTBEAT" = r :: rest → r.msg.hbType = some n →
      typeLookup n = none →
      getVehicleType msgs = "Unknown Type " ++ toString n) ∧
    (∀ msgs : List (String × List NRec), lookupBucket msgs "HEARTBEAT" = [] →
      getVehicleType msgs =
        (if "MSG" ∈ msgs.map Prod.fst then scanMsgs (lookupBucket msgs "MSG")
         else "UNKNOWN")) ∧
    (∀ (msgs : List (String × List NRec)) (r : NRec) (rest : List NRec),
      lookupBucket msgs "HEARTBEAT" = r :: rest → r.msg.hbType = none →
      getVehicleType msgs =
        (if "MSG" ∈ msgs.map Prod.fst then scanMsgs (lookupBucket msgs "MSG")
         else "UNKNOWN")) := by
  refine ⟨?_, ?_, ?_, ?_⟩
  · intro msgs r rest n name hl ht htl
    have hne := typeLookup_ne_unknown n name htl
    simp [getVehicleType, hl, ht, htl, hne]
  · intro msgs r rest n hl ht htl
    have hne := unknownType_ne (toString n)
    simp [getVehicleType, hl, ht, htl, hne]
  · intro msgs hl
    simp [getVehicleType, hl]
  · intro msgs r rest hl ht
    simp [getVehicleType, hl, ht]

/-- C6 witness: a recognized heartbeat type code (1, Fixed Wing) wins over a
conflicting `arducopter` status-text keyword. -/
theorem c6_witness : getVehicleType msgs6w = "Fixed Wing" :=
  c6_vehicle_precedence_amended.1 msgs6w ⟨hb1, 0⟩ [] 1 "Fixed Wing"
    (by decide) (by decide) (by decide)

/-- C6 counterexample: with an unrecognized heartbeat code (99) and a
conflicting `arducopter` keyword, the code returns `"Unknown Type 99"` and
never consults the keyword scan (which would have returned `"Quadcopter"`),
contradicting the claimed fallback for unrecognized heartbeat codes. -/
theorem c6_counterexample :
    getVehicleType msgs6c = "Unknown Type 99" ∧
    scanMsgs (lookupBucket msgs6c "MSG") = "Quadcopter" ∧
    ("Unknown Type 99" : String) ≠ "Quadcopter" := by
  refine ⟨by decide, by decide, by decide⟩

/-- The cached wall-clock value is `none` until first used and `wall`
afterwards. -/
theorem getTimestamp_cur (wall : ℚ) (cur : Option ℚ) (m : Msg)
    (h : cur = none ∨ cur = some wall) :
    (getTimestamp wall cur m).2 = none ∨ (getTimestamp wall cur m).2 = some wall := by
  cases ht : m.tstamp with
  | some t => simpa [getTimestamp, ht] using h
  | none =>
    cases hb : m.time_boot_ms with
    | some b => simpa [getTimestamp, ht, hb] using h
    | none =>
      cases hu : m.time_unix_usec with
      | some u => simpa [getTimestamp, ht, hb, hu] using h
      | none =>
        rcases h with h | h <;> rw [h] <;> simp [getTimestamp, ht, hb, hu]

/-- The cache invariant survives one loop iteration. -/
theorem processFrame_cur (wall : ℚ) (s : PState) (f : Frame)
    (h : s.cur_ts = none ∨ s.cur_ts = some wall) :
    (processFrame wall s f).cur_ts = none ∨
      (processFrame wall s f).cur_ts = some wall := by
  cases f with
  | failRecv => simpa [processFrame] using h
  | failDecode m =>
      simpa [processFrame, normStep] using getTimestamp_cur wall s.cur_ts m h
  | decoded m =>
      have hm := getTimestamp_cur wall s.cur_ts m h
      by_cases ht : m.msgType = "GLOBAL_POSITION_INT"
      · cases hq : gpiFields m with
        | some q => simpa [processFrame, normStep, ht, hq] using hm
        | none => simpa [processFrame, normStep, ht, hq] using hm
      · simpa [processFrame, normStep, ht] using hm

/-- The cache invariant over a whole run. -/
theorem foldl_cur (wall : ℚ) (frames : List Frame) : ∀ s : PState,
    (s.cur_ts = none ∨ s.cur_ts = some wall) →
    ((frames.foldl (processFrame wall) s).cur_ts = none ∨
      (frames.foldl (processFrame wall) s).cur_ts = some wall) := by
  induction frames with
  | nil => intro s h; simpa using h
  | cons f rest ih =>
      intro s h
      simpa [List.foldl_cons] using ih (processFrame wall s f) (processFrame_cur wall s f h)

/-- C7: the resolved timestamp tries, in order with first success winning, the
`_timestamp` attribute, `time_boot_ms / 1000`, `time_unix_usec / 1e6`, and
finally the process wall clock, which is captured at most once per run and
reused unchanged by every frame that reaches the fallback: along any prefix of
any run the cache is `none` or exactly `some wall`, and under that invariant
the fallback always resolves to `wall`. -/
theorem c7_timestamp_chain (wall : ℚ) (frames : List Frame) (k : ℕ) :
    (((frames.take k).foldl (processFrame wall) initState).cur_ts = none ∨
      ((frames.take k).foldl (processFrame wall) initState).cur_ts = some wall) ∧
    (∀ (cur : Option ℚ) (m : Msg), (cur = none ∨ cur = some wall) →
      ((∀ t, m.tstamp = some t → (getTimestamp wall cur m).1 = t) ∧
      (m.tstamp = none → ∀ b, m.time_boot_ms = some b →
        (getTimestamp wall cur m).1 = b / 1000) ∧
      (m.tstamp = none → m.time_boot_ms = none →
        ∀ u, m.time_unix_usec = some u →
          (getTimestamp wall cur m).1 = u / 1000000) ∧
      (m.tstamp = none → m.time_boot_ms = none → m.time_unix_usec = none →
        (getTimestamp wall cur m).1 = wall ∧
          (getTimestamp wall cur m).2 = some wall))) := by
  constructor
  · exact foldl_cur wall (frames.take k) initState (Or.inl rfl)
  · intro cur m hcur
    refine ⟨?_, ?_, ?_, ?_⟩
    · intro t ht; simp [getTimestamp, ht]
    · intro ht b hb; simp [getTimestamp, ht, hb]
    · intro ht hb u hu; simp [getTimestamp, ht, hb, hu]
    · intro ht hb hu
      rcases hcur with h | h <;> rw [h] <;> simp [getTimestamp, ht, hb, hu]

/-- C7 witness: a frame with no time information resolves to the wall clock,
and the wall clock is cached. -/
theorem c7_witness :
    (getTimestamp 7 none mNoTime).1 = 7 ∧
    (getTimestamp 7 none mNoTime).2 = some 7 :=
  ((c7_timestamp_chain 7 [] 0).2 none mNoTime (Or.inl rfl)).2.2.2
    rfl rfl rfl

/-- Inserting a fresh key into the time-trajectory dict appends it. -/
theorem dictInsert_fresh (k : ℚ) (v : TP) : ∀ l : List (ℚ × TP),
    k ∉ l.map Prod.fst → dictInsert k v l = l ++ [(k, v)] := by
  intro l
  induction l with
  | nil => intro _; rfl
  | cons p rest ih =>
      intro h
      rw [List.map_cons, List.mem_cons, not_or] at h
      unfold dictInsert
      rw [if_neg (fun hh => h.1 hh.symm), ih h.2]
      rfl

/-- One `Forall₂`-related element appended to both lists. -/
theorem forall2_concat {R : TP → (ℚ × TP) → Prop} {l1 : List TP}
    {l2 : List (ℚ × TP)} (h : List.Forall₂ R l1 l2) {a : TP} {b : ℚ × TP}
    (hab : R a b) : List.Forall₂ R (l1 ++ [a]) (l2 ++ [b]) :=
  List.rel_append h (List.Forall₂.cons hab List.Forall₂.nil)

/-- The trajectory invariant survives one GLOBAL_POSITION_INT sample. -/
theorem trajStep_inv (ts lat lon rel : ℚ) (t : TrajState) (hI : TrajInv t) :
    TrajInv (trajStep ts lat lon rel t) := by
  unfold trajStep
  by_cases hc : (timeOk ts t.last_timestamp && movedOk lat lon rel t.last_position) = true
  case neg => rw [if_neg hc]; exact hI
  case pos =>
  rw [if_pos hc]
  rw [Bool.and_eq_true] at hc
  obtain ⟨hTime, _⟩ := hc
  cases hs : t.start_altitude with
  | none =>
      obtain ⟨htraj, htime, _⟩ := hI.startNone hs
      rw [htraj, htime]
      simp only [Option.getD_none, List.nil_append]
      constructor
      · intro h; simp at h
      · intro _
        constructor <;> simp [dictInsert]
      · intro h; simp at h
      · simp [dictInsert]
      · intro l' hl' k hk
        simp at hl' hk
        subst hl'
        subst hk
        exact le_refl _
      · simp
      · intro a₀' hsa'
        simp at hsa'
        subst hsa'
        simp [dictInsert, List.forall₂_cons]
      · intro a₀' hsa' q hq
        simp at hsa'
        simp [dictInsert] at hq
        subst hq
        exact hsa'
      · intro p hp
        simp at hp
        subst hp
        simp
  | some a₀ =>
      obtain ⟨htrne, htine⟩ := hI.startSome (by rw [hs]; rfl)
      have hlast : ∃ l, t.last_timestamp = some l := by
        cases hl : t.last_timestamp with
        | none => exact absurd (hI.lastNone hl).1 htrne
        | some l => exact ⟨l, rfl⟩
      obtain ⟨l, hl⟩ := hlast
      rw [hl] at hTime
      unfold timeOk at hTime
      rw [decide_eq_true_iff] at hTime
      have hlts : l < ts := by linarith
      have hmul : l * 1000 < ts * 1000 := by linarith
      have hfresh : (ts * 1000) ∉ t.time_traj.map Prod.fst := by
        rw [hI.keys]
        intro hmem
        have := hI.bound l hl _ hmem
        linarith
      rw [dictInsert_fresh _ _ _ hfresh]
      simp only [Option.getD_some]
      constructor
      · intro h; simp at h
      · intro _
        constructor <;> simp
      · intro h; simp at h
      · rw [List.map_append, List.map_append, hI.keys]
        rfl
      · intro l' hl' k hk
        rw [Option.some_inj] at hl'
        subst hl'
        rw [List.map_append, List.mem_append] at hk
        rcases hk with hk | hk
        · have hb := hI.bound l hl k hk
          linarith
        · simp at hk
          subst hk
          exact le_refl _
      · rw [List.map_append, List.pairwise_append]
        refine ⟨hI.sorted, by simp, ?_⟩
        intro x hx y hy
        simp at hy
        subst hy
        have hb := hI.bound l hl x hx
        linarith
      · intro a₀' hsa'
        rw [Option.some_inj] at hsa'
        subst hsa'
        exact forall2_concat (hI.altRel a₀ hs) rfl
      · intro a₀' hsa' q hq
        rw [Option.some_inj] at hsa'
        subst hsa'
        cases hti : t.time_traj with
        | nil => exact absurd hti htine
        | cons q0 qs =>
            rw [hti] at hq
            rw [List.cons_append, List.head?_cons, Option.some_inj] at hq
            rw [← hq]
            exact hI.firstAbs a₀ hs q0 (by rw [hti]; rfl)
      · intro p hp
        cases htr : t.trajectory with
        | nil => exact absurd htr htrne
        | cons p0 ps =>
            rw [htr] at hp
            rw [List.cons_append, List.head?_cons, Option.some_inj] at hp
            rw [← hp]
            exact hI.firstZero p0 (by rw [htr]; rfl)

/-- The trajectory invariant survives any loop iteration (non-position frames
and failing frames leave the trajectory accumulator untouched). -/
theorem processFrame_traj (wall : ℚ) (s : PState) (f : Frame)
    (hI : TrajInv s.traj) : TrajInv (processFrame wall s f).traj := by
  cases f with
  | failRecv => exact hI
  | failDecode m => exact hI
  | decoded m =>
      by_cases ht : m.msgType = "GLOBAL_POSITION_INT"
      · cases hq : gpiFields m with
        | some q =>
            simpa [processFrame, normStep, ht, hq] using
              trajStep_inv _ _ _ _ _ hI
        | none => simpa [processFrame, normStep, ht, hq] using hI
      · simpa [processFrame, normStep, ht] using hI

/-- The trajectory invariant over a whole run. -/
theorem foldl_traj (wall : ℚ) (frames : List Frame) : ∀ s : PState,
    TrajInv s.traj → TrajInv ((frames.foldl (processFrame wall) s).traj) := by
  induction frames with
  | nil => intro s h; exact h
  | cons f rest ih =>
      intro s h
      exact ih (processFrame wall s f) (processFrame_traj wall s f h)

/-- The trajectory accumulator of a full parse satisfies the invariant. -/
theorem parse_trajInv (wall : ℚ) (frames : List Frame) :
    TrajInv ((frames.foldl (processFrame wall) initState).traj) := by
  refine foldl_traj wall frames initState ?_
  constructor <;> simp [initState]

/-- C8: in every parse result, the single produced track has points sorted
strictly (hence non-decreasingly) by timestamp; whenever a start altitude
exists, each point of the relative list is the matching absolute entry of the
time-keyed map minus the start altitude, and the start altitude is exactly the
absolute altitude of the first accepted sample; the first point of a nonempty
trajectory has relative altitude exactly 0, and a nonempty trajectory always
has a start altitude. -/
theorem c8_track_invariants (wall : ℚ) (fn : String) (fsz : ℕ)
    (frames : List Frame) (tr : Track)
    (h : (parse wall fn fsz frames).trajectory_data =
      [("GLOBAL_POSITION_INT", tr)]) :
    List.Pairwise (fun a b => a ≤ b) (tr.trajectory.map TP.ts) ∧
    (∀ p, tr.trajectory.head? = some p → p.alt = 0) ∧
    (∀ a₀, tr.startAltitude = some a₀ →
      List.Forall₂ (fun p q => p.alt = (Prod.snd q).alt - a₀)
        tr.trajectory tr.timeTrajectory ∧
      (∀ q, tr.timeTrajectory.head? = some q → (Prod.snd q).alt = a₀)) ∧
    (tr.trajectory ≠ [] → tr.startAltitude.isSome) := by
  have hI := parse_trajInv wall frames
  have htr : tr =
      { startAltitude := (frames.foldl (processFrame wall) initState).traj.start_altitude,
        trajectory := (frames.foldl (processFrame wall) initState).traj.trajectory,
        timeTrajectory := (frames.foldl (processFrame wall) initState).traj.time_traj } := by
    have h2 := congrArg (fun l => (l.headD ("", ⟨none, [], []⟩)).2) h
    simpa using h2.symm
  subst htr
  refine ⟨hI.sorted.imp le_of_lt, ?_, ?_, ?_⟩
  · exact hI.firstZero
  · intro a₀ ha
    exact ⟨hI.altRel a₀ ha, hI.firstAbs a₀ ha⟩
  · intro hne
    cases hsa : (frames.foldl (processFrame wall) initState).traj.start_altitude with
    | none => exact absurd (hI.startNone hsa).1 hne
    | some a => rfl

/-- C8 witness: a run accepting two samples 300 s and two degrees of latitude
apart satisfies all the track invariants. -/
theorem c8_witness :
    List.Pairwise (fun a b => a ≤ b) (c8track.trajectory.map TP.ts) ∧
    (∀ p, c8track.trajectory.head? = some p → p.alt = 0) ∧
    (∀ a₀, c8track.startAltitude = some a₀ →
      List.Forall₂ (fun p q => p.alt = (Prod.snd q).alt - a₀)
        c8track.trajectory c8track.timeTrajectory ∧
      (∀ q, c8track.timeTrajectory.head? = some q → (Prod.snd q).alt = a₀)) ∧
    (c8track.trajectory ≠ [] → c8track.startAltitude.isSome) :=
  c8_track_invariants 0 "f" 0 c8frames c8track (by decide)

/-- C10: every parse result, regardless of input, carries exactly the one
trajectory key `GLOBAL_POSITION_INT` in `trajectory_data`, lists exactly that
source in the metadata, and guarantees a `GLOBAL_POSITION_INT` entry in the
message table (possibly an empty bucket); when no sample was accepted the
track has no start altitude and both point collections are empty. -/
theorem c10_trajectory_shape (wall : ℚ) (fn : String) (fsz : ℕ)
    (frames : List Frame) :
    (parse wall fn fsz frames).trajectory_data.map Prod.fst =
      ["GLOBAL_POSITION_INT"] ∧
    (parse wall fn fsz frames).metadata.trajectorySources =
      ["GLOBAL_POSITION_INT"] ∧
    "GLOBAL_POSITION_INT" ∈ (parse wall fn fsz frames).messages.map Prod.fst ∧
    (∀ tr, (parse wall fn fsz frames).trajectory_data =
        [("GLOBAL_POSITION_INT", tr)] → tr.startAltitude = none →
      tr.trajectory = [] ∧ tr.timeTrajectory = []) := by
  refine ⟨rfl, rfl, ?_, ?_⟩
  · exact mem_keys_ensureKey _ _
  · intro tr h hnone
    have hI := parse_trajInv wall frames
    have htr : tr =
        { startAltitude := (frames.foldl (processFrame wall) initState).traj.start_altitude,
          trajectory := (frames.foldl (processFrame wall) initState).traj.trajectory,
          timeTrajectory := (frames.foldl (processFrame wall) initState).traj.time_traj } := by
      have h2 := congrArg (fun l => (l.headD ("", ⟨none, [], []⟩)).2) h
      simpa using h2.symm
    subst htr
    simp only at hnone
    obtain ⟨h1, h2, _⟩ := hI.startNone hnone
    exact ⟨h1, h2⟩

/-- C10 witness: the empty log (no GLOBAL_POSITION_INT at all) produces the
single empty track with no start altitude, and the message table still has
the `GLOBAL_POSITION_INT` key. -/
theorem c10_witness :
    (parse 0 "f" 0 []).trajectory_data.map Prod.fst =
      ["GLOBAL_POSITION_INT"] ∧
    (parse 0 "f" 0 []).metadata.trajectorySources = ["GLOBAL_POSITION_INT"] ∧
    "GLOBAL_POSITION_INT" ∈ (parse 0 "f" 0 []).messages.map Prod.fst ∧
    (emptyTrack.trajectory = [] ∧ emptyTrack.timeTrajectory = []) := by
  obtain ⟨h1, h2, h3, h4⟩ := c10_trajectory_shape 0 "f" 0 []
  exact ⟨h1, h2, h3, h4 emptyTrack (by decide) (by decide)⟩
